import Mathlib

/-!
Verification development for the infinite-canvas editor (`src/main.ts`).

The program is an xstate hierarchical state machine driving a 2D canvas:
pan/zoom via a `DOMMatrixReadOnly` affine transform, a draggable
grid-snapped "generation frame", and a list of generated image placements.

Shallow embedding conventions:
* JS numbers are embedded as rationals (`ℚ`); the float literal `0.1` in
  the zoom clamp is embedded as `1/10`.
* `DOMMatrixReadOnly` is embedded as `Matrix2D` with the standard DOM
  2D-matrix semantics: `translate`/`scale` post-multiply, `inverse` is the
  adjugate formula over the determinant (division by a zero determinant
  yields Lean's `0`-convention; every use below is at an invertible
  transform), `transformPoint` applies the matrix to a point.
* `Math.exp(-evt.deltaY / 100)` is transcendental, hence not a rational
  function of the event fields; the wheel event therefore carries the
  resulting scale factor `scaleAmount` as an explicit field (in the
  browser it is always a positive real).
* `Math.round` is JS round-half-toward-positive-infinity, embedded as
  `jsRound q = ⌊q + 1/2⌋`.
* External DOM state read by the code is made explicit: the hit-test guard
  reads `canvasContext.getTransform()`, so the machine step takes the
  rendering surface's current transform `surf` as an input; the `resize`
  action writes only to the canvas element, modeled by `CanvasElement`.
* Image handles (`new Image()` with a random URL) are opaque external
  resources, embedded as `Unit`.
-/

/-- A 2D point, as `DOMPoint` restricted to the x/y fields the code uses. -/
@[ext]
structure Point where
  x : ℚ
  y : ℚ
deriving DecidableEq

/-- The 2×3 affine transform `[[a,c,e],[b,d,f],[0,0,1]]`, as
`DOMMatrixReadOnly` restricted to its 2D components. -/
@[ext]
structure Matrix2D where
  a : ℚ
  b : ℚ
  c : ℚ
  d : ℚ
  e : ℚ
  f : ℚ
deriving DecidableEq

/-- `new DOMMatrixReadOnly()`: the identity transform. -/
def Matrix2D.identity : Matrix2D := ⟨1, 0, 0, 1, 0, 0⟩

/-- `m.translate(tx, ty)`: post-multiply by a translation. -/
def Matrix2D.translate (m : Matrix2D) (tx ty : ℚ) : Matrix2D :=
  { m with e := m.a * tx + m.c * ty + m.e, f := m.b * tx + m.d * ty + m.f }

/-- `m.scale(s)`: post-multiply by a uniform scale. -/
def Matrix2D.scale (m : Matrix2D) (s : ℚ) : Matrix2D :=
  { m with a := m.a * s, b := m.b * s, c := m.c * s, d := m.d * s }

/-- Determinant of the linear part. -/
def Matrix2D.det (m : Matrix2D) : ℚ := m.a * m.d - m.b * m.c

/-- `m.inverse()` / `m.invertSelf()`: the 2D affine inverse. -/
def Matrix2D.inverse (m : Matrix2D) : Matrix2D :=
  { a := m.d / m.det
    b := -m.b / m.det
    c := -m.c / m.det
    d := m.a / m.det
    e := (m.c * m.f - m.d * m.e) / m.det
    f := (m.b * m.e - m.a * m.f) / m.det }

/-- `m.transformPoint(p)` (also `p.matrixTransform(m)`). -/
def Matrix2D.transformPoint (m : Matrix2D) (p : Point) : Point :=
  ⟨m.a * p.x + m.c * p.y + m.e, m.b * p.x + m.d * p.y + m.f⟩

/-- `const CELL_SIZE = 32`. -/
def CELL_SIZE : ℚ := 32

/-- `const FRAME_WIDTH = 576`. -/
def FRAME_WIDTH : ℚ := 576

/-- `const FRAME_HEIGHT = 576`. -/
def FRAME_HEIGHT : ℚ := 576

/-- The `Frame` interface: a world-space rectangle plus an opaque handle to
an asynchronously loading image (`HTMLImageElement`, embedded as `Unit`). -/
@[ext]
structure Frame where
  x : ℚ
  y : ℚ
  width : ℚ
  height : ℚ
  image : Unit
deriving DecidableEq

/-- `Omit<Frame, "image">`: the geometry of the generation frame. -/
@[ext]
structure GenerationFrame where
  x : ℚ
  y : ℚ
  width : ℚ
  height : ℚ
deriving DecidableEq

/-- The machine context (`CanvasMachineContext`). -/
@[ext]
structure CanvasMachineContext where
  width : ℚ
  height : ℚ
  images : List Frame
  dragStart : Point
  generationFrame : GenerationFrame
  oldGenerationFrame : GenerationFrame
  transform : Matrix2D
deriving DecidableEq

/-- The initial context, parameterized by the canvas element's size at
startup (`elCanvas.width` / `elCanvas.height`). `new DOMPoint()` is the
origin and the initial transform is the identity. -/
def initialContext (w h : ℚ) : CanvasMachineContext :=
  { width := w
    height := h
    images := []
    dragStart := ⟨0, 0⟩
    generationFrame := ⟨0, 0, FRAME_WIDTH, FRAME_HEIGHT⟩
    oldGenerationFrame := ⟨0, 0, FRAME_WIDTH, FRAME_HEIGHT⟩
    transform := Matrix2D.identity }

/-- The key string `" "` compared against `evt.key` by the `isSpaceKey`
guard. -/
def spaceKey : String := " "

/-- Events consumed by the machine. Each constructor carries exactly the
fields the guards and actions read from that DOM event. `GENERATE` is the
external user command sent by the generate button. The wheel event carries
`scaleAmount`, standing for `Math.exp(-deltaY / 100)` (see module header). -/
inductive Event where
  | resize (offsetWidth offsetHeight : ℚ)
  | GENERATE
  | mousemove (pageX pageY movementX movementY : ℚ)
  | mousedown (pageX pageY : ℚ)
  | mouseup
  | wheel (pageX pageY deltaX deltaY : ℚ) (ctrlKey metaKey : Bool) (scaleAmount : ℚ)
  | keydown (key : String)
  | keyup (key : String)
deriving DecidableEq

/-- `isMouseDownEvent`: `evt.type === "mousedown"`. -/
def isMouseDownEvent : Event → Bool
  | .mousedown _ _ => true
  | _ => false

/-- `isMouseMoveEvent`: `evt.type === "mousemove"`. -/
def isMouseMoveEvent : Event → Bool
  | .mousemove _ _ _ _ => true
  | _ => false

/-- `isWheelEvent`: `evt.type === "wheel"`. -/
def isWheelEvent : Event → Bool
  | .wheel _ _ _ _ _ _ _ => true
  | _ => false

/-- Guard `isSpaceKey`: `evt.key === " "` (only key events carry a key). -/
def isSpaceKey : Event → Bool
  | .keydown k => k == spaceKey
  | .keyup k => k == spaceKey
  | _ => false

/-- Guard `ctrlKeyIsPressed`: `evt.ctrlKey` (carried by wheel events). -/
def ctrlKeyIsPressed : Event → Bool
  | .wheel _ _ _ _ ctrl _ _ => ctrl
  | _ => false

/-- Guard `metaKeyIsPressed`: `evt.metaKey` (carried by wheel events). -/
def metaKeyIsPressed : Event → Bool
  | .wheel _ _ _ _ _ m _ => m
  | _ => false

/-- JS `Math.round`: round to nearest, ties toward positive infinity. -/
def jsRound (q : ℚ) : ℤ := ⌊q + 1 / 2⌋

/-- Action `setDragStart`: on a mousedown, store the raw screen point
`new DOMPoint(evt.pageX, evt.pageY)`; otherwise keep `dragStart`. -/
def setDragStart (ctx : CanvasMachineContext) (evt : Event) : CanvasMachineContext :=
  match evt with
  | .mousedown pageX pageY => { ctx with dragStart := ⟨pageX, pageY⟩ }
  | _ => ctx

/-- Action `generate`: append a new `Frame` whose geometry is the current
generation frame's geometry, paired with a fresh (opaque) image handle. -/
def generate (ctx : CanvasMachineContext) : CanvasMachineContext :=
  { ctx with
    images := ctx.images ++
      [{ x := ctx.generationFrame.x
         y := ctx.generationFrame.y
         width := ctx.generationFrame.width
         height := ctx.generationFrame.height
         image := () }] }

/-- Action `copyGenerationFrame`: snapshot the generation frame. -/
def copyGenerationFrame (ctx : CanvasMachineContext) : CanvasMachineContext :=
  { ctx with oldGenerationFrame := ctx.generationFrame }

/-- Action `updateGenerationFrame`: on a mousemove while dragging, map the
stored drag-start point and the current pointer through the inverse of the
context transform, add the world-space delta to the drag-start snapshot of
the frame, and snap each axis with `Math.round(v / CELL_SIZE) * CELL_SIZE`. -/
def updateGenerationFrame (ctx : CanvasMachineContext) (evt : Event) : CanvasMachineContext :=
  match evt with
  | .mousemove pageX pageY _ _ =>
    let transformedDragStart := ctx.transform.inverse.transformPoint ctx.dragStart
    let transformedMousePoint := ctx.transform.inverse.transformPoint ⟨pageX, pageY⟩
    let deltaX := transformedMousePoint.x - transformedDragStart.x
    let deltaY := transformedMousePoint.y - transformedDragStart.y
    let x := ctx.oldGenerationFrame.x + deltaX
    let y := ctx.oldGenerationFrame.y + deltaY
    { ctx with
      generationFrame :=
        { x := (jsRound (x / CELL_SIZE) : ℚ) * CELL_SIZE
          y := (jsRound (y / CELL_SIZE) : ℚ) * CELL_SIZE
          width := FRAME_WIDTH
          height := FRAME_HEIGHT } }
  | _ => ctx

/-- Action `updateScale`: zoom about the cursor. The cursor is mapped to
world space, the transform is conjugated by that pivot around a uniform
scale, and the update is rejected when the resulting horizontal scale
leaves `[0.1, 10]`. -/
def updateScale (ctx : CanvasMachineContext) (evt : Event) : CanvasMachineContext :=
  match evt with
  | .wheel pageX pageY _ _ _ _ scaleAmount =>
    let transformedCursor := ctx.transform.inverse.transformPoint ⟨pageX, pageY⟩
    let transform :=
      ((ctx.transform.translate transformedCursor.x transformedCursor.y).scale
        scaleAmount).translate (-transformedCursor.x) (-transformedCursor.y)
    if transform.a < 1 / 10 ∨ transform.a > 10 then ctx
    else { ctx with transform := transform }
  | _ => ctx

/-- Action `updateOffset`: pan. A mousemove pans by its movement deltas, a
wheel event pans by the negated wheel deltas; either delta is applied in
de-scaled space: `T.scale(1/T.a).translate(dx, dy).scale(T.a)`. -/
def updateOffset (ctx : CanvasMachineContext) (evt : Event) : CanvasMachineContext :=
  match evt with
  | .mousemove _ _ movementX movementY =>
    { ctx with
      transform :=
        ((ctx.transform.scale (1 / ctx.transform.a)).translate movementX movementY).scale
          ctx.transform.a }
  | .wheel _ _ deltaX deltaY _ _ _ =>
    { ctx with
      transform :=
        ((ctx.transform.scale (1 / ctx.transform.a)).translate (-deltaX) (-deltaY)).scale
          ctx.transform.a }
  | _ => ctx

/-- Guard `isOverGenerationFrame`: map the event's screen point to world
space with the inverse of the live rendering surface's transform
(`canvasContext.getTransform().invertSelf()`, here the explicit `surf`
input) and test strict containment in the generation frame; `false` for
any non-mousemove event. -/
def isOverGenerationFrame (ctx : CanvasMachineContext) (surf : Matrix2D) (evt : Event) : Bool :=
  match evt with
  | .mousemove pageX pageY _ _ =>
    let transformedPoint := surf.inverse.transformPoint ⟨pageX, pageY⟩
    decide (transformedPoint.x > ctx.generationFrame.x ∧
      transformedPoint.x < ctx.generationFrame.x + ctx.generationFrame.width ∧
      transformedPoint.y > ctx.generationFrame.y ∧
      transformedPoint.y < ctx.generationFrame.y + ctx.generationFrame.height)
  | _ => false

/-- The machine's state chart flattened to its five leaf states. -/
inductive MState where
  | idleOutside
  | idleOver
  | dragging
  | panningIdle
  | panningActive
deriving DecidableEq

/-- One transition of the machine: xstate semantics with child handlers
taking precedence over ancestors, unhandled events as identity, guarded
transition lists tried in order, and targetless transitions staying in the
current leaf state. `surf` is the rendering surface transform read by the
hit-test guard. Cursor styling and `preventDefault` are external side
effects with no bearing on state or context and are not modeled; the
root-level `resize` handler's action writes only to the canvas element
(see `updateSize`). -/
def step (st : MState) (ctx : CanvasMachineContext) (surf : Matrix2D) (evt : Event) :
    MState × CanvasMachineContext :=
  match st, evt with
  | st, .resize _ _ => (st, ctx)
  | .idleOutside, .GENERATE => (.idleOutside, generate ctx)
  | .idleOutside, .mousemove px py mx my =>
    if isOverGenerationFrame ctx surf (.mousemove px py mx my) then (.idleOver, ctx)
    else (.idleOutside, ctx)
  | .idleOutside, .wheel px py dx dy ctrl m s =>
    if ctrlKeyIsPressed (.wheel px py dx dy ctrl m s) then
      (.idleOutside, updateScale ctx (.wheel px py dx dy ctrl m s))
    else if metaKeyIsPressed (.wheel px py dx dy ctrl m s) then
      (.idleOutside, updateScale ctx (.wheel px py dx dy ctrl m s))
    else (.idleOutside, updateOffset ctx (.wheel px py dx dy ctrl m s))
  | .idleOutside, .keydown k =>
    if isSpaceKey (.keydown k) then (.panningIdle, ctx) else (.idleOutside, ctx)
  | .idleOver, .GENERATE => (.idleOver, generate ctx)
  | .idleOver, .mousemove px py mx my =>
    if isOverGenerationFrame ctx surf (.mousemove px py mx my) then (.idleOver, ctx)
    else (.idleOutside, ctx)
  | .idleOver, .mousedown px py =>
    (.dragging, copyGenerationFrame (setDragStart ctx (.mousedown px py)))
  | .idleOver, .wheel px py dx dy ctrl m s =>
    if ctrlKeyIsPressed (.wheel px py dx dy ctrl m s) then
      (.idleOver, updateScale ctx (.wheel px py dx dy ctrl m s))
    else if metaKeyIsPressed (.wheel px py dx dy ctrl m s) then
      (.idleOver, updateScale ctx (.wheel px py dx dy ctrl m s))
    else (.idleOver, updateOffset ctx (.wheel px py dx dy ctrl m s))
  | .idleOver, .keydown k =>
    if isSpaceKey (.keydown k) then (.panningIdle, ctx) else (.idleOver, ctx)
  | .dragging, .mousemove px py mx my =>
    (.dragging, updateGenerationFrame ctx (.mousemove px py mx my))
  | .dragging, .mouseup => (.idleOutside, ctx)
  | .panningIdle, .mousedown _ _ => (.panningActive, ctx)
  | .panningIdle, .keyup _ => (.idleOutside, ctx)
  | .panningActive, .mousemove px py mx my =>
    (.panningActive, updateOffset ctx (.mousemove px py mx my))
  | .panningActive, .mouseup => (.panningIdle, ctx)
  | .panningActive, .keyup _ => (.idleOutside, ctx)
  | st, _ => (st, ctx)

/-- States and contexts reachable by the interpreted machine from startup.
The surface transform is universally quantified at each step (the renderer
keeps it equal to the context transform; quantifying over all values only
enlarges the reachable set, so invariants proved over this relation hold
of the real system). -/
inductive Reachable : MState → CanvasMachineContext → Prop
  | init (w h : ℚ) : Reachable MState.idleOutside (initialContext w h)
  | next (st : MState) (ctx : CanvasMachineContext) (surf : Matrix2D) (evt : Event) :
      Reachable st ctx → Reachable (step st ctx surf evt).1 (step st ctx surf evt).2

/-- The canvas element's size state (`elCanvas.width/height` plus the live
layout size `offsetWidth/offsetHeight`). -/
structure CanvasElement where
  width : ℚ
  height : ℚ
  offsetWidth : ℚ
  offsetHeight : ℚ
deriving DecidableEq

/-- Action `updateSize`: copy the element's live layout size into its
drawing-buffer size. It is a plain (non-`assign`) xstate action: it writes
to the canvas element only and never touches the machine context. -/
def updateSize (el : CanvasElement) : CanvasElement :=
  { el with width := el.offsetWidth, height := el.offsetHeight }

/-- Spec-side predicate: the point lies strictly inside the frame
(`frame.x < px < frame.x + width` and `frame.y < py < frame.y + height`). -/
def StrictlyInside (g : GenerationFrame) (p : Point) : Prop :=
  g.x < p.x ∧ p.x < g.x + g.width ∧ g.y < p.y ∧ p.y < g.y + g.height

/-- Spec-side candidate position of a drag update: the drag-start snapshot
origin plus the world-space delta between the current pointer and the
(world image of the) stored drag-start point. -/
def dragCandidate (ctx : CanvasMachineContext) (px py : ℚ) : Point :=
  ⟨ctx.oldGenerationFrame.x +
      ((ctx.transform.inverse.transformPoint ⟨px, py⟩).x -
        (ctx.transform.inverse.transformPoint ctx.dragStart).x),
    ctx.oldGenerationFrame.y +
      ((ctx.transform.inverse.transformPoint ⟨px, py⟩).y -
        (ctx.transform.inverse.transformPoint ctx.dragStart).y)⟩

/-- Spec-side characterization of grid snapping: `r` is a multiple of the
cell size, no other multiple is closer to the candidate value `v`, and an
exact tie (distance `cell / 2`) is resolved upward (toward `+∞`). -/
def IsNearestMultipleTieUp (cell v r : ℚ) : Prop :=
  (∃ k : ℤ, r = (k : ℚ) * cell) ∧
    (∀ k : ℤ, |r - v| ≤ |(k : ℚ) * cell - v|) ∧
    (|r - v| = cell / 2 → r = v + cell / 2)

/-- Modelled from the spec: round to nearest with ties away from zero
("standard rounding" as the spec words it), the rounding mode the spec
claims for drag snapping. Stated only to compare against the code's
`jsRound`. -/
def roundTiesAwayFromZero (q : ℚ) : ℤ :=
  if q < 0 then ⌈q - 1 / 2⌉ else ⌊q + 1 / 2⌋

/-- A concrete startup context (canvas 800×600). -/
def ctx0 : CanvasMachineContext := initialContext 800 600

/-- The context after pressing the mouse at screen point `(100, 100)` over
the frame with the identity transform: drag start stored, frame snapshot
taken. -/
def ctxD : CanvasMachineContext := { ctx0 with dragStart := ⟨100, 100⟩ }

/-- The context after a wheel pan of `deltaX = -10` from startup: the
transform has picked up a translation of `+10` in x. -/
def ctx1 : CanvasMachineContext := { ctx0 with transform := ⟨1, 0, 0, 1, 10, 0⟩ }

/-- A non-space key, for exercising the panning exit transitions. -/
def keyB : String := "b"

/-! ### Field-preservation facts for the actions -/

@[simp]
theorem setDragStart_images (ctx : CanvasMachineContext) (evt : Event) :
    (setDragStart ctx evt).images = ctx.images := by
  cases evt <;> rfl

@[simp]
theorem setDragStart_transform (ctx : CanvasMachineContext) (evt : Event) :
    (setDragStart ctx evt).transform = ctx.transform := by
  cases evt <;> rfl

@[simp]
theorem setDragStart_generationFrame (ctx : CanvasMachineContext) (evt : Event) :
    (setDragStart ctx evt).generationFrame = ctx.generationFrame := by
  cases evt <;> rfl

@[simp]
theorem copyGenerationFrame_images (ctx : CanvasMachineContext) :
    (copyGenerationFrame ctx).images = ctx.images := rfl

@[simp]
theorem copyGenerationFrame_transform (ctx : CanvasMachineContext) :
    (copyGenerationFrame ctx).transform = ctx.transform := rfl

@[simp]
theorem copyGenerationFrame_generationFrame (ctx : CanvasMachineContext) :
    (copyGenerationFrame ctx).generationFrame = ctx.generationFrame := rfl

@[simp]
theorem generate_transform (ctx : CanvasMachineContext) :
    (generate ctx).transform = ctx.transform := rfl

@[simp]
theorem generate_generationFrame (ctx : CanvasMachineContext) :
    (generate ctx).generationFrame = ctx.generationFrame := rfl

@[simp]
theorem updateGenerationFrame_images (ctx : CanvasMachineContext) (evt : Event) :
    (updateGenerationFrame ctx evt).images = ctx.images := by
  cases evt <;> rfl

@[simp]
theorem updateGenerationFrame_transform (ctx : CanvasMachineContext) (evt : Event) :
    (updateGenerationFrame ctx evt).transform = ctx.transform := by
  cases evt <;> rfl

@[simp]
theorem updateScale_images (ctx : CanvasMachineContext) (evt : Event) :
    (updateScale ctx evt).images = ctx.images := by
  cases evt <;> first | rfl | (simp only [updateScale]; split_ifs <;> rfl)

@[simp]
theorem updateScale_generationFrame (ctx : CanvasMachineContext) (evt : Event) :
    (updateScale ctx evt).generationFrame = ctx.generationFrame := by
  cases evt <;> first | rfl | (simp only [updateScale]; split_ifs <;> rfl)

@[simp]
theorem updateOffset_images (ctx : CanvasMachineContext) (evt : Event) :
    (updateOffset ctx evt).images = ctx.images := by
  cases evt <;> rfl

@[simp]
theorem updateOffset_generationFrame (ctx : CanvasMachineContext) (evt : Event) :
    (updateOffset ctx evt).generationFrame = ctx.generationFrame := by
  cases evt <;> rfl

/-! ### The reachable-state invariant -/

/-- Invariant of every reachable context: the transform is a uniform
(`a = d`), shear-free (`b = c = 0`) scale-and-translate whose scale lies
in the clamp range `[1/10, 10]`, and the generation frame keeps the fixed
`FRAME_WIDTH × FRAME_HEIGHT` size. -/
def MachineInv (ctx : CanvasMachineContext) : Prop :=
  ctx.transform.b = 0 ∧ ctx.transform.c = 0 ∧ ctx.transform.a = ctx.transform.d ∧
    1 / 10 ≤ ctx.transform.a ∧ ctx.transform.a ≤ 10 ∧
    ctx.generationFrame.width = FRAME_WIDTH ∧ ctx.generationFrame.height = FRAME_HEIGHT

theorem machineInv_initial (w h : ℚ) : MachineInv (initialContext w h) := by
  refine ⟨rfl, rfl, rfl, ?_, ?_, rfl, rfl⟩ <;> norm_num [initialContext, Matrix2D.identity]

theorem machineInv_setDragStart (ctx : CanvasMachineContext) (evt : Event)
    (h : MachineInv ctx) : MachineInv (setDragStart ctx evt) := by
  cases evt <;> exact h

theorem machineInv_copyGenerationFrame (ctx : CanvasMachineContext)
    (h : MachineInv ctx) : MachineInv (copyGenerationFrame ctx) := h

theorem machineInv_generate (ctx : CanvasMachineContext)
    (h : MachineInv ctx) : MachineInv (generate ctx) := h

theorem machineInv_updateGenerationFrame (ctx : CanvasMachineContext) (evt : Event)
    (h : MachineInv ctx) : MachineInv (updateGenerationFrame ctx evt) := by
  cases evt with
  | mousemove px py mx my =>
    obtain ⟨hb, hc, had, h1, h2, hw, hh⟩ := h
    exact ⟨hb, hc, had, h1, h2, rfl, rfl⟩
  | _ => exact h

theorem machineInv_updateScale (ctx : CanvasMachineContext) (evt : Event)
    (h : MachineInv ctx) : MachineInv (updateScale ctx evt) := by
  cases evt with
  | wheel px py dx dy ctrl m s =>
    obtain ⟨hb, hc, had, h1, h2, hw, hh⟩ := h
    simp only [updateScale]
    split_ifs with hcond
    · exact ⟨hb, hc, had, h1, h2, hw, hh⟩
    · push_neg at hcond
      refine ⟨?_, ?_, ?_, ?_, ?_, hw, hh⟩ <;>
        simp only [Matrix2D.translate, Matrix2D.scale] at hcond ⊢
      · rw [hb, zero_mul]
      · rw [hc, zero_mul]
      · rw [had]
      · exact hcond.1
      · exact hcond.2
  | _ => exact h

theorem machineInv_updateOffset (ctx : CanvasMachineContext) (evt : Event)
    (h : MachineInv ctx) : MachineInv (updateOffset ctx evt) := by
  obtain ⟨hb, hc, had, h1, h2, hw, hh⟩ := h
  have ha : ctx.transform.a ≠ 0 := by positivity
  have key : ∀ q : ℚ, q * (1 / ctx.transform.a) * ctx.transform.a = q := by
    intro q
    rw [mul_assoc, one_div, inv_mul_cancel₀ ha, mul_one]
  cases evt with
  | mousemove px py mx my =>
    refine ⟨?_, ?_, ?_, ?_, ?_, hw, hh⟩ <;>
      simp only [updateOffset, Matrix2D.translate, Matrix2D.scale, key]
    · exact hb
    · exact hc
    · exact had
    · exact h1
    · exact h2
  | wheel px py dx dy ctrl m s =>
    refine ⟨?_, ?_, ?_, ?_, ?_, hw, hh⟩ <;>
      simp only [updateOffset, Matrix2D.translate, Matrix2D.scale, key]
    · exact hb
    · exact hc
    · exact had
    · exact h1
    · exact h2
  | _ => exact ⟨hb, hc, had, h1, h2, hw, hh⟩

theorem machineInv_step (st : MState) (ctx : CanvasMachineContext) (surf : Matrix2D)
    (evt : Event) (h : MachineInv ctx) : MachineInv (step st ctx surf evt).2 := by
  cases st <;> cases evt <;>
    simp only [step] <;>
    first
      | exact h
      | exact machineInv_generate _ h
      | exact machineInv_updateGenerationFrame _ _ h
      | exact machineInv_updateOffset _ _ h
      | exact machineInv_copyGenerationFrame _ (machineInv_setDragStart _ _ h)
      | (split_ifs <;>
          first
            | exact h
            | exact machineInv_updateScale _ _ h
            | exact machineInv_updateOffset _ _ h)

theorem reachable_machineInv (st : MState) (ctx : CanvasMachineContext)
    (h : Reachable st ctx) : MachineInv ctx := by
  induction h with
  | init w h => exact machineInv_initial w h
  | next st ctx surf evt _ ih => exact machineInv_step st ctx surf evt ih

/-! ### Concrete reachable states -/

theorem reach_ctx0 : Reachable .idleOutside ctx0 := Reachable.init 800 600

theorem step_ctx0_mousemove_over :
    step .idleOutside ctx0 Matrix2D.identity (.mousemove 100 100 0 0) = (.idleOver, ctx0) := by
  norm_num [step, isOverGenerationFrame, ctx0, initialContext, Matrix2D.identity,
    Matrix2D.inverse, Matrix2D.det, Matrix2D.transformPoint, FRAME_WIDTH, FRAME_HEIGHT]

theorem reach_idleOver_ctx0 : Reachable .idleOver ctx0 := by
  have h := Reachable.next .idleOutside ctx0 Matrix2D.identity (.mousemove 100 100 0 0) reach_ctx0
  rw [step_ctx0_mousemove_over] at h
  exact h

theorem step_ctx0_mousedown :
    step .idleOver ctx0 Matrix2D.identity (.mousedown 100 100) = (.dragging, ctxD) := by
  simp only [step, setDragStart, copyGenerationFrame]
  norm_num [ctxD, ctx0, initialContext]

theorem reach_dragging_ctxD : Reachable .dragging ctxD := by
  have h := Reachable.next .idleOver ctx0 Matrix2D.identity (.mousedown 100 100) reach_idleOver_ctx0
  rw [step_ctx0_mousedown] at h
  exact h

theorem step_ctx0_wheelpan :
    step .idleOutside ctx0 Matrix2D.identity (.wheel 0 0 (-10) 0 false false 1) =
      (.idleOutside, ctx1) := by
  simp only [step, ctrlKeyIsPressed, metaKeyIsPressed, if_false, Bool.false_eq_true,
    updateOffset]
  norm_num [ctx1, ctx0, initialContext, Matrix2D.identity, Matrix2D.scale, Matrix2D.translate,
    Matrix2D.mk.injEq, CanvasMachineContext.mk.injEq]

theorem reach_ctx1 : Reachable .idleOutside ctx1 := by
  have h := Reachable.next .idleOutside ctx0 Matrix2D.identity
    (.wheel 0 0 (-10) 0 false false 1) reach_ctx0
  rw [step_ctx0_wheelpan] at h
  exact h

theorem step_ctx1_mousemove_over :
    step .idleOutside ctx1 ctx1.transform (.mousemove 100 100 0 0) = (.idleOver, ctx1) := by
  norm_num [step, isOverGenerationFrame, ctx1, ctx0, initialContext, Matrix2D.inverse,
    Matrix2D.det, Matrix2D.transformPoint, FRAME_WIDTH, FRAME_HEIGHT]

theorem reach_idleOver_ctx1 : Reachable .idleOver ctx1 := by
  have h := Reachable.next .idleOutside ctx1 ctx1.transform (.mousemove 100 100 0 0) reach_ctx1
  rw [step_ctx1_mousemove_over] at h
  exact h

/-! ### Transform round-trip facts -/

theorem Matrix2D.transformPoint_inverse_point (m : Matrix2D) (hdet : m.det ≠ 0) (p : Point) :
    m.transformPoint (m.inverse.transformPoint p) = p := by
  simp only [Matrix2D.det] at hdet
  simp only [Matrix2D.transformPoint, Matrix2D.inverse, Matrix2D.det]
  refine Point.ext ?_ ?_ <;> field_simp <;> ring

theorem Matrix2D.inverse_point_transformPoint (m : Matrix2D) (hdet : m.det ≠ 0) (q : Point) :
    m.inverse.transformPoint (m.transformPoint q) = q := by
  simp only [Matrix2D.det] at hdet
  simp only [Matrix2D.transformPoint, Matrix2D.inverse, Matrix2D.det]
  refine Point.ext ?_ ?_ <;> field_simp <;> ring

/-- C1: Zoom-about-cursor fixes the cursor's world point. For every
transform produced by the machine and every wheel event at screen point
`(px, py)` with a scale factor `s` whose resulting horizontal scale stays
within the clamp bounds, the transform returned by the `updateScale`
action maps the screen point to the same world point as the old transform
(exactly, over rational arithmetic). -/
theorem C1_zoom_about_cursor_fixes_world_point (st : MState) (ctx : CanvasMachineContext)
    (hreach : Reachable st ctx) (px py dx dy : ℚ) (ctrl m : Bool) (s : ℚ)
    (hlo : 1 / 10 ≤ ctx.transform.a * s) (hhi : ctx.transform.a * s ≤ 10) :
    (updateScale ctx (.wheel px py dx dy ctrl m s)).transform.inverse.transformPoint ⟨px, py⟩ =
      ctx.transform.inverse.transformPoint ⟨px, py⟩ := by
  obtain ⟨hb, hc, had, h1, h2, _, _⟩ := reachable_machineInv st ctx hreach
  have ha : ctx.transform.a ≠ 0 := by positivity
  have hs : s ≠ 0 := by
    intro h0
    rw [h0, mul_zero] at hlo
    norm_num at hlo
  have hdet : ctx.transform.det ≠ 0 := by
    have hd : ctx.transform.det = ctx.transform.a * ctx.transform.a := by
      rw [Matrix2D.det, hb, hc, ← had]
      ring
    rw [hd]
    exact mul_ne_zero ha ha
  simp only [updateScale]
  rw [if_neg]
  · set w := ctx.transform.inverse.transformPoint ⟨px, py⟩ with hw_def
    set T2 := ((ctx.transform.translate w.x w.y).scale s).translate (-w.x) (-w.y) with hT2
    have hdet2 : T2.det ≠ 0 := by
      have : T2.det = ctx.transform.det * (s * s) := by
        rw [hT2]
        simp only [Matrix2D.det, Matrix2D.translate, Matrix2D.scale]
        ring
      rw [this]
      exact mul_ne_zero hdet (mul_ne_zero hs hs)
    have hTw : ctx.transform.transformPoint w = ⟨px, py⟩ :=
      Matrix2D.transformPoint_inverse_point ctx.transform hdet ⟨px, py⟩
    have happ : T2.transformPoint w = ⟨px, py⟩ := by
      rw [Point.mk.injEq] at hTw ⊢
      obtain ⟨e1, e2⟩ := hTw
      simp only [hT2, Matrix2D.transformPoint, Matrix2D.translate, Matrix2D.scale] at e1 e2 ⊢
      constructor
      · linear_combination e1
      · linear_combination e2
    calc T2.inverse.transformPoint ⟨px, py⟩
        = T2.inverse.transformPoint (T2.transformPoint w) := by rw [happ]
      _ = w := Matrix2D.inverse_point_transformPoint T2 hdet2 w
  · push_neg
    constructor
    · simp only [Matrix2D.translate, Matrix2D.scale]
      exact hlo
    · simp only [Matrix2D.translate, Matrix2D.scale]
      exact hhi

/-- C1 witness: at the startup transform, zooming in by a factor `2` about
the screen point `(5, 7)` keeps that point's world image unchanged. -/
theorem C1_witness :
    1 / 10 ≤ ctx0.transform.a * 2 ∧ ctx0.transform.a * 2 ≤ 10 ∧
      (updateScale ctx0 (.wheel 5 7 0 0 true false 2)).transform.inverse.transformPoint ⟨5, 7⟩ =
        ctx0.transform.inverse.transformPoint ⟨5, 7⟩ :=
  ⟨by norm_num [ctx0, initialContext, Matrix2D.identity],
    by norm_num [ctx0, initialContext, Matrix2D.identity],
    C1_zoom_about_cursor_fixes_world_point .idleOutside ctx0 reach_ctx0 5 7 0 0 true false 2
      (by norm_num [ctx0, initialContext, Matrix2D.identity])
      (by norm_num [ctx0, initialContext, Matrix2D.identity])⟩

theorem updateScale_rejected (ctx : CanvasMachineContext) (px py dx dy : ℚ) (ctrl m : Bool)
    (s : ℚ) (h : ctx.transform.a * s < 1 / 10 ∨ 10 < ctx.transform.a * s) :
    updateScale ctx (.wheel px py dx dy ctrl m s) = ctx := by
  simp only [updateScale]
  split_ifs with hcond
  · rfl
  · exact absurd (by simpa [Matrix2D.translate, Matrix2D.scale] using h) hcond

/-- C5: in every reachable machine state the transform is a uniform scale
(`a = d`) with horizontal scale inside the clamp range `[1/10, 10]`, and a
zoom update (wheel with ctrl or meta held) whose resulting horizontal
scale `a * s` would leave that range is rejected: the step leaves the
transform unchanged. -/
theorem C5_uniform_scale_bounds_and_clamp (st : MState) (ctx : CanvasMachineContext)
    (hreach : Reachable st ctx) :
    (ctx.transform.a = ctx.transform.d ∧ 1 / 10 ≤ ctx.transform.a ∧ ctx.transform.a ≤ 10) ∧
      ∀ (surf : Matrix2D) (px py dx dy : ℚ) (ctrl m : Bool) (s : ℚ),
        (ctrl || m) = true →
        (ctx.transform.a * s < 1 / 10 ∨ 10 < ctx.transform.a * s) →
        (step st ctx surf (.wheel px py dx dy ctrl m s)).2.transform = ctx.transform := by
  obtain ⟨hb, hc, had, h1, h2, hw, hh⟩ := reachable_machineInv st ctx hreach
  refine ⟨⟨had, h1, h2⟩, ?_⟩
  intro surf px py dx dy ctrl m s hmod hout
  cases st <;> cases ctrl <;> cases m <;>
    first
      | rfl
      | (simp only [step, ctrlKeyIsPressed, metaKeyIsPressed]
         split_ifs <;>
           first
             | rfl
             | rw [updateScale_rejected ctx px py dx dy _ _ s hout]
             | simp_all)

/-- C5 witness: the startup transform is a uniform in-bounds scale, and a
zoom by factor `1000` from startup (which would give scale `1000 > 10`) is
rejected, leaving the transform unchanged. -/
theorem C5_witness :
    (ctx0.transform.a = ctx0.transform.d ∧ 1 / 10 ≤ ctx0.transform.a ∧ ctx0.transform.a ≤ 10) ∧
      (step .idleOutside ctx0 Matrix2D.identity
        (.wheel 0 0 0 0 true false 1000)).2.transform = ctx0.transform :=
  ⟨(C5_uniform_scale_bounds_and_clamp .idleOutside ctx0 reach_ctx0).1,
    (C5_uniform_scale_bounds_and_clamp .idleOutside ctx0 reach_ctx0).2 Matrix2D.identity
      0 0 0 0 true false 1000 rfl
      (Or.inr (by norm_num [ctx0, initialContext, Matrix2D.identity]))⟩

/-- C3: hit-test boundary exclusivity. The `isOverGenerationFrame` guard
holds exactly when the event's screen point, mapped through the inverse of
the rendering-surface transform, lies strictly inside the frame; for every
frame, a point on any edge line is not "over", a point at least one unit
inside each edge is "over", and a point at least one unit outside some
edge is not. -/
theorem C3_hit_test_boundary_exclusive :
    (∀ (ctx : CanvasMachineContext) (surf : Matrix2D) (px py mx my : ℚ),
      isOverGenerationFrame ctx surf (.mousemove px py mx my) = true ↔
        StrictlyInside ctx.generationFrame (surf.inverse.transformPoint ⟨px, py⟩)) ∧
    (∀ (g : GenerationFrame) (p : Point),
      (p.x = g.x ∨ p.x = g.x + g.width ∨ p.y = g.y ∨ p.y = g.y + g.height) →
        ¬ StrictlyInside g p) ∧
    (∀ (g : GenerationFrame) (p : Point),
      g.x + 1 ≤ p.x → p.x ≤ g.x + g.width - 1 → g.y + 1 ≤ p.y → p.y ≤ g.y + g.height - 1 →
        StrictlyInside g p) ∧
    (∀ (g : GenerationFrame) (p : Point),
      (p.x ≤ g.x - 1 ∨ g.x + g.width + 1 ≤ p.x ∨ p.y ≤ g.y - 1 ∨ g.y + g.height + 1 ≤ p.y) →
        ¬ StrictlyInside g p) := by
  refine ⟨?_, ?_, ?_, ?_⟩
  · intro ctx surf px py mx my
    simp only [isOverGenerationFrame, StrictlyInside, decide_eq_true_eq, gt_iff_lt]
  · rintro g p (h | h | h | h) ⟨h1, h2, h3, h4⟩ <;> linarith
  · intro g p h1 h2 h3 h4
    exact ⟨by linarith, by linarith, by linarith, by linarith⟩
  · rintro g p (h | h | h | h) ⟨h1, h2, h3, h4⟩ <;> linarith

/-- C3 witness: at startup the guard accepts screen point `(100, 100)`;
for the default `576 × 576` frame at the origin, `(0, 5)` (on the left
edge) is not inside, `(1, 1)` (one unit inside) is, and `(-1, 5)` (one
unit outside) is not. -/
theorem C3_witness :
    isOverGenerationFrame ctx0 Matrix2D.identity (.mousemove 100 100 0 0) = true ∧
      ¬ StrictlyInside ⟨0, 0, 576, 576⟩ ⟨0, 5⟩ ∧
      StrictlyInside ⟨0, 0, 576, 576⟩ ⟨1, 1⟩ ∧
      ¬ StrictlyInside ⟨0, 0, 576, 576⟩ ⟨-1, 5⟩ :=
  ⟨(C3_hit_test_boundary_exclusive.1 ctx0 Matrix2D.identity 100 100 0 0).mpr
      (by norm_num [StrictlyInside, ctx0, initialContext, Matrix2D.identity, Matrix2D.inverse,
        Matrix2D.det, Matrix2D.transformPoint, FRAME_WIDTH, FRAME_HEIGHT]),
    C3_hit_test_boundary_exclusive.2.1 ⟨0, 0, 576, 576⟩ ⟨0, 5⟩ (Or.inl rfl),
    C3_hit_test_boundary_exclusive.2.2.1 ⟨0, 0, 576, 576⟩ ⟨1, 1⟩
      (by norm_num) (by norm_num) (by norm_num) (by norm_num),
    C3_hit_test_boundary_exclusive.2.2.2 ⟨0, 0, 576, 576⟩ ⟨-1, 5⟩
      (Or.inl (by norm_num))⟩

/-- C9: malformed events are no-ops. An event whose type tag does not
match what a guard or action expects leaves the context unchanged (the
actions return their input context) and makes the hit-test guard evaluate
`false`; every guard and action is a total function, so none can throw
past the state machine boundary. -/
theorem C9_malformed_events_are_noops (ctx : CanvasMachineContext) (surf : Matrix2D)
    (evt : Event) :
    (isMouseMoveEvent evt = false → updateGenerationFrame ctx evt = ctx) ∧
      (isMouseMoveEvent evt = false → isWheelEvent evt = false → updateOffset ctx evt = ctx) ∧
      (isMouseDownEvent evt = false → setDragStart ctx evt = ctx) ∧
      (isWheelEvent evt = false → updateScale ctx evt = ctx) ∧
      (isMouseMoveEvent evt = false → isOverGenerationFrame ctx surf evt = false) := by
  cases evt <;>
    simp [isMouseMoveEvent, isWheelEvent, isMouseDownEvent, updateGenerationFrame,
      updateOffset, setDragStart, updateScale, isOverGenerationFrame]

/-- C9 witness: a `mouseup` event is rejected by every type guard, so all
the event-shape-checking actions return the startup context unchanged and
the hit-test guard returns `false`. -/
theorem C9_witness :
    updateGenerationFrame ctx0 .mouseup = ctx0 ∧ updateOffset ctx0 .mouseup = ctx0 ∧
      setDragStart ctx0 .mouseup = ctx0 ∧ updateScale ctx0 .mouseup = ctx0 ∧
      isOverGenerationFrame ctx0 Matrix2D.identity .mouseup = false :=
  ⟨(C9_malformed_events_are_noops ctx0 Matrix2D.identity .mouseup).1 rfl,
    (C9_malformed_events_are_noops ctx0 Matrix2D.identity .mouseup).2.1 rfl rfl,
    (C9_malformed_events_are_noops ctx0 Matrix2D.identity .mouseup).2.2.1 rfl,
    (C9_malformed_events_are_noops ctx0 Matrix2D.identity .mouseup).2.2.2.1 rfl,
    (C9_malformed_events_are_noops ctx0 Matrix2D.identity .mouseup).2.2.2.2 rfl⟩

/-- C10: any key release exits panning. From either panning substate a
`keyup` event with any key returns the machine to `idle` (entering the
initial `idle.outside` child) with the context untouched, while entering
panning from an idle substate requires a `keydown` whose key is exactly
the space character. -/
theorem C10_any_keyup_exits_panning (ctx : CanvasMachineContext) (surf : Matrix2D)
    (k : String) :
    step .panningIdle ctx surf (.keyup k) = (.idleOutside, ctx) ∧
      step .panningActive ctx surf (.keyup k) = (.idleOutside, ctx) ∧
      ∀ st : MState, (st = .idleOutside ∨ st = .idleOver) →
        (((step st ctx surf (.keydown k)).1 = .panningIdle ↔ k = spaceKey) ∧
          (k ≠ spaceKey → step st ctx surf (.keydown k) = (st, ctx))) := by
  refine ⟨rfl, rfl, ?_⟩
  rintro st (rfl | rfl) <;>
    constructor <;>
    simp only [step, isSpaceKey, beq_iff_eq] <;>
    [skip; intro hk; skip; intro hk] <;>
    split_ifs with h <;>
    simp_all

/-- C10 witness: releasing the `b` key in `panning.idle` returns to
`idle.outside` unchanged; pressing space in `idle.outside` enters panning
while pressing `b` does not. -/
theorem C10_witness :
    step .panningIdle ctx0 Matrix2D.identity (.keyup keyB) = (.idleOutside, ctx0) ∧
      (step .idleOutside ctx0 Matrix2D.identity (.keydown spaceKey)).1 = .panningIdle ∧
      step .idleOutside ctx0 Matrix2D.identity (.keydown keyB) = (.idleOutside, ctx0) :=
  ⟨(C10_any_keyup_exits_panning ctx0 Matrix2D.identity keyB).1,
    ((C10_any_keyup_exits_panning ctx0 Matrix2D.identity spaceKey).2.2 .idleOutside
        (Or.inl rfl)).1.mpr rfl,
    ((C10_any_keyup_exits_panning ctx0 Matrix2D.identity keyB).2.2 .idleOutside
        (Or.inl rfl)).2 (by simp [keyB, spaceKey])⟩

/-- C4 counterexample: the wheel-pan claim fails as stated. At startup, a
modifier-free wheel event with `(deltaX, deltaY) = (3, 5)` does not yield
`T.scale(1/T.a).translate(3, 5).scale(T.a)` — the code negates the deltas.
Moreover, the same wheel event while `dragging` is unhandled and leaves
the transform unchanged, so the formula also fails outside the idle
states. -/
theorem C4_counterexample :
    (step .idleOutside ctx0 Matrix2D.identity (.wheel 0 0 3 5 false false 1)).2.transform ≠
        ((ctx0.transform.scale (1 / ctx0.transform.a)).translate 3 5).scale ctx0.transform.a ∧
      (step .dragging ctx0 Matrix2D.identity (.wheel 0 0 3 5 false false 1)).2.transform =
        ctx0.transform := by
  constructor
  · norm_num [step, ctrlKeyIsPressed, metaKeyIsPressed, updateOffset, ctx0, initialContext,
      Matrix2D.identity, Matrix2D.scale, Matrix2D.translate, Matrix2D.mk.injEq]
  · rfl

/-- C4 amended: for every wheel event without a zoom modifier received in
an idle substate (the only states whose chart handles wheel), the new
transform is `T.scale(1/T.a).translate(-dx, -dy).scale(T.a)`: the
screen-space pan delta is the negation of the wheel's delta axes. -/
theorem C4_wheel_pan_negated_delta (ctx : CanvasMachineContext) (surf : Matrix2D)
    (px py dx dy s : ℚ) :
    step .idleOutside ctx surf (.wheel px py dx dy false false s) =
        (.idleOutside,
          { ctx with
            transform :=
              ((ctx.transform.scale (1 / ctx.transform.a)).translate (-dx) (-dy)).scale
                ctx.transform.a }) ∧
      step .idleOver ctx surf (.wheel px py dx dy false false s) =
        (.idleOver,
          { ctx with
            transform :=
              ((ctx.transform.scale (1 / ctx.transform.a)).translate (-dx) (-dy)).scale
                ctx.transform.a }) :=
  ⟨rfl, rfl⟩

/-- C7 counterexample: the drag-start snapshot is not stored in world
space. In the reachable `idle.over` state whose transform carries a pan of
`+10` in x, pressing the mouse at screen point `(100, 100)` stores
`dragStart = (100, 100)` (raw screen coordinates), while the world image
of that screen point under the inverse transform is `(90, 100)`. -/
theorem C7_counterexample :
    Reachable .idleOver ctx1 ∧
      (step .idleOver ctx1 ctx1.transform (.mousedown 100 100)).1 = .dragging ∧
      (step .idleOver ctx1 ctx1.transform (.mousedown 100 100)).2.dragStart ≠
        ctx1.transform.inverse.transformPoint ⟨100, 100⟩ := by
  refine ⟨reach_idleOver_ctx1, rfl, ?_⟩
  norm_num [step, setDragStart, copyGenerationFrame, ctx1, ctx0, initialContext,
    Matrix2D.inverse, Matrix2D.det, Matrix2D.transformPoint, Point.mk.injEq]

/-- C7 amended: a mousedown in `idle.over` transitions to `dragging`,
snapshots `oldGenerationFrame := generationFrame` (pre-drag), and stores
`dragStart` as the raw screen point of the event; the inverse transform is
applied to it later, at each drag update, not at capture time. -/
theorem C7_mousedown_starts_drag (ctx : CanvasMachineContext) (surf : Matrix2D) (px py : ℚ) :
    step .idleOver ctx surf (.mousedown px py) =
      (.dragging,
        { ctx with dragStart := ⟨px, py⟩, oldGenerationFrame := ctx.generationFrame }) :=
  rfl

/-- C8 counterexample: a resize does not recompute the context's stored
canvas size. From startup (stored width `800`), a resize event reporting a
live viewport width of `999` leaves the context's `width` at `800`. -/
theorem C8_counterexample :
    (step .idleOutside ctx0 Matrix2D.identity (.resize 999 700)).2.width = 800 ∧
      (800 : ℚ) ≠ 999 :=
  ⟨rfl, by norm_num⟩

/-- C8 amended: in every state, a resize event is handled by the root and
leaves the machine state and the entire machine context (its stored
width/height, the transform, and every other field) unchanged; the
`updateSize` action instead writes the live viewport size into the canvas
element's own width/height. -/
theorem C8_resize_updates_element_only (st : MState) (ctx : CanvasMachineContext)
    (surf : Matrix2D) (w h : ℚ) :
    step st ctx surf (.resize w h) = (st, ctx) ∧
      ∀ el : CanvasElement,
        (updateSize el).width = el.offsetWidth ∧ (updateSize el).height = el.offsetHeight ∧
          (updateSize el).offsetWidth = el.offsetWidth ∧
          (updateSize el).offsetHeight = el.offsetHeight := by
  refine ⟨?_, fun el => ⟨rfl, rfl, rfl, rfl⟩⟩
  cases st <;> rfl

theorem step_images_extend (st : MState) (ctx : CanvasMachineContext) (surf : Matrix2D)
    (evt : Event) : ∃ tail, (step st ctx surf evt).2.images = ctx.images ++ tail := by
  cases st <;> cases evt <;>
    first
      | exact ⟨_, rfl⟩
      | (refine ⟨[], ?_⟩
         show ctx.images = ctx.images ++ []
         rw [List.append_nil])
      | (refine ⟨[], ?_⟩
         simp only [step]
         split_ifs <;> simp)

/-- C6: in either idle substate, `GENERATE` stays in that substate and
appends exactly one placement at the end of the list, whose geometry is
the generation frame's geometry at invocation time; and no step of the
machine ever modifies an already-stored placement (every step's image list
extends the previous one), so later frame moves leave stored geometry
unchanged. -/
theorem C6_generate_appends_frozen_placement :
    (∀ (ctx : CanvasMachineContext) (st : MState) (surf : Matrix2D),
      (st = .idleOutside ∨ st = .idleOver) →
        (step st ctx surf .GENERATE).1 = st ∧
          (step st ctx surf .GENERATE).2.images =
            ctx.images ++ [⟨ctx.generationFrame.x, ctx.generationFrame.y,
              ctx.generationFrame.width, ctx.generationFrame.height, ()⟩] ∧
          (step st ctx surf .GENERATE).2.images.length = ctx.images.length + 1) ∧
      ∀ (st : MState) (ctx : CanvasMachineContext) (surf : Matrix2D) (evt : Event) (i : ℕ),
        i < ctx.images.length → (step st ctx surf evt).2.images[i]? = ctx.images[i]? := by
  constructor
  · rintro ctx st surf (rfl | rfl) <;> refine ⟨rfl, rfl, ?_⟩ <;> simp [step, generate]
  · intro st ctx surf evt i hi
    obtain ⟨tail, ht⟩ := step_images_extend st ctx surf evt
    rw [ht, List.getElem?_append, if_pos hi]

/-- C6 witness: generating from startup extends the empty list to one
placement, and generating again from the one-placement context leaves the
stored first placement untouched. -/
theorem C6_witness :
    (step .idleOutside ctx0 Matrix2D.identity .GENERATE).2.images.length =
        ctx0.images.length + 1 ∧
      (step .idleOutside (generate ctx0) Matrix2D.identity .GENERATE).2.images[0]? =
        (generate ctx0).images[0]? :=
  ⟨(C6_generate_appends_frozen_placement.1 ctx0 .idleOutside Matrix2D.identity
      (Or.inl rfl)).2.2,
    C6_generate_appends_frozen_placement.2 .idleOutside (generate ctx0) Matrix2D.identity
      .GENERATE 0 (by simp [generate, ctx0, initialContext])⟩

theorem jsRound_mul_isNearestMultipleTieUp (cell v : ℚ) (hc : 0 < cell) :
    IsNearestMultipleTieUp cell v ((jsRound (v / cell) : ℚ) * cell) := by
  have hc0 : cell ≠ 0 := ne_of_gt hc
  set n : ℤ := jsRound (v / cell) with hn
  have h1 : (n : ℚ) ≤ v / cell + 1 / 2 := by
    rw [hn, jsRound]
    exact Int.floor_le _
  have h2 : v / cell + 1 / 2 < (n : ℚ) + 1 := by
    rw [hn, jsRound]
    exact Int.lt_floor_add_one _
  have hexp : (v / cell + 1 / 2) * cell = v + cell / 2 := by
    field_simp
    ring
  have e1 : (n : ℚ) * cell ≤ v + cell / 2 := by
    have h := mul_le_mul_of_nonneg_right h1 hc.le
    rw [hexp] at h
    exact h
  have e2 : v + cell / 2 < ((n : ℚ) + 1) * cell := by
    have h := mul_lt_mul_of_pos_right h2 hc
    rw [hexp] at h
    exact h
  have hub : (n : ℚ) * cell - v ≤ cell / 2 := by linarith
  have hlb : -(cell / 2) < (n : ℚ) * cell - v := by nlinarith
  have habs : |(n : ℚ) * cell - v| ≤ cell / 2 := abs_le.mpr ⟨le_of_lt hlb, hub⟩
  refine ⟨⟨n, rfl⟩, ?_, ?_⟩
  · intro k
    rcases lt_trichotomy k n with hk | hk | hk
    · have hk1 : (k : ℚ) + 1 ≤ (n : ℚ) := by exact_mod_cast Int.add_one_le_iff.mpr hk
      have hkc : (k : ℚ) * cell + cell ≤ (n : ℚ) * cell := by nlinarith
      have hge : cell / 2 ≤ v - (k : ℚ) * cell := by linarith
      calc |(n : ℚ) * cell - v| ≤ cell / 2 := habs
        _ ≤ v - (k : ℚ) * cell := hge
        _ ≤ |(k : ℚ) * cell - v| := by
            rw [abs_sub_comm]
            exact le_abs_self _
    · exact le_of_eq (by rw [hk])
    · have hk1 : (n : ℚ) + 1 ≤ (k : ℚ) := by exact_mod_cast Int.add_one_le_iff.mpr hk
      have hkc : (n : ℚ) * cell + cell ≤ (k : ℚ) * cell := by nlinarith
      have hge : cell / 2 ≤ (k : ℚ) * cell - v := by linarith
      calc |(n : ℚ) * cell - v| ≤ cell / 2 := habs
        _ ≤ (k : ℚ) * cell - v := hge
        _ ≤ |(k : ℚ) * cell - v| := le_abs_self _
  · intro htie
    rcases (abs_eq (by positivity : (0 : ℚ) ≤ cell / 2)).mp htie with h | h
    · linarith
    · linarith

/-- C2 counterexample: drag snapping does not round ties away from zero.
In the reachable dragging state started by pressing the mouse at screen
point `(100, 100)` at 1:1 scale, moving the pointer to `(84, 100)` gives a
candidate x of `-16`, an exact tie between the multiples `-32` and `0` of
the cell size `32`. The code (JS `Math.round`, ties toward `+∞`) puts the
frame at `x = 0`, while ties-away-from-zero rounding as claimed would put
it at `x = -32`. -/
theorem C2_counterexample :
    Reachable .dragging ctxD ∧
      (dragCandidate ctxD 84 100).x = -16 ∧
      (step .dragging ctxD Matrix2D.identity (.mousemove 84 100 0 0)).2.generationFrame.x = 0 ∧
      (roundTiesAwayFromZero ((dragCandidate ctxD 84 100).x / CELL_SIZE) : ℚ) * CELL_SIZE =
        -32 ∧
      (0 : ℚ) ≠ -32 := by
  refine ⟨reach_dragging_ctxD, ?_, ?_, ?_, by norm_num⟩
  · norm_num [dragCandidate, ctxD, ctx0, initialContext, Matrix2D.identity, Matrix2D.inverse,
      Matrix2D.det, Matrix2D.transformPoint]
  · norm_num [step, updateGenerationFrame, ctxD, ctx0, initialContext, Matrix2D.identity,
      Matrix2D.inverse, Matrix2D.det, Matrix2D.transformPoint, jsRound, CELL_SIZE]
  · norm_num [roundTiesAwayFromZero, dragCandidate, ctxD, ctx0, initialContext,
      Matrix2D.identity, Matrix2D.inverse, Matrix2D.det, Matrix2D.transformPoint, CELL_SIZE]
    rw [show ((-1 : ℚ)) = ((-1 : ℤ) : ℚ) by norm_num, Int.ceil_intCast]
    norm_num

/-- C2 amended: on every mousemove while dragging, the machine stays in
`dragging` and the new generation-frame origin is the drag-start frame
origin plus the world-space pointer delta, with each axis snapped
independently to the nearest multiple of the cell size with ties rounded
toward positive infinity (JS `Math.round`, not ties away from zero); the
frame's width and height are unchanged. -/
theorem C2_drag_snaps_half_up (ctx : CanvasMachineContext)
    (hreach : Reachable .dragging ctx) (surf : Matrix2D) (px py mx my : ℚ) :
    (step .dragging ctx surf (.mousemove px py mx my)).1 = .dragging ∧
      (step .dragging ctx surf (.mousemove px py mx my)).2.generationFrame.x =
        (jsRound ((dragCandidate ctx px py).x / CELL_SIZE) : ℚ) * CELL_SIZE ∧
      (step .dragging ctx surf (.mousemove px py mx my)).2.generationFrame.y =
        (jsRound ((dragCandidate ctx px py).y / CELL_SIZE) : ℚ) * CELL_SIZE ∧
      IsNearestMultipleTieUp CELL_SIZE (dragCandidate ctx px py).x
        (step .dragging ctx surf (.mousemove px py mx my)).2.generationFrame.x ∧
      IsNearestMultipleTieUp CELL_SIZE (dragCandidate ctx px py).y
        (step .dragging ctx surf (.mousemove px py mx my)).2.generationFrame.y ∧
      (step .dragging ctx surf (.mousemove px py mx my)).2.generationFrame.width =
        ctx.generationFrame.width ∧
      (step .dragging ctx surf (.mousemove px py mx my)).2.generationFrame.height =
        ctx.generationFrame.height := by
  obtain ⟨hb, hc, had, h1, h2, hw, hh⟩ := reachable_machineInv .dragging ctx hreach
  have hcell : (0 : ℚ) < CELL_SIZE := by norm_num [CELL_SIZE]
  have hx : (step .dragging ctx surf (.mousemove px py mx my)).2.generationFrame.x =
      (jsRound ((dragCandidate ctx px py).x / CELL_SIZE) : ℚ) * CELL_SIZE := rfl
  have hy : (step .dragging ctx surf (.mousemove px py mx my)).2.generationFrame.y =
      (jsRound ((dragCandidate ctx px py).y / CELL_SIZE) : ℚ) * CELL_SIZE := rfl
  refine ⟨rfl, hx, hy, ?_, ?_, ?_, ?_⟩
  · rw [hx]
    exact jsRound_mul_isNearestMultipleTieUp CELL_SIZE (dragCandidate ctx px py).x hcell
  · rw [hy]
    exact jsRound_mul_isNearestMultipleTieUp CELL_SIZE (dragCandidate ctx px py).y hcell
  · show FRAME_WIDTH = ctx.generationFrame.width
    exact hw.symm
  · show FRAME_HEIGHT = ctx.generationFrame.height
    exact hh.symm

/-- C2 witness: in the reachable dragging state started at screen point
`(100, 100)`, a pointer move to `(164, 100)` (world delta `(64, 0)` at 1:1
scale) snaps the frame as the amended claim describes. -/
theorem C2_witness :
    (step .dragging ctxD Matrix2D.identity (.mousemove 164 100 0 0)).1 = .dragging ∧
      (step .dragging ctxD Matrix2D.identity (.mousemove 164 100 0 0)).2.generationFrame.x =
        (jsRound ((dragCandidate ctxD 164 100).x / CELL_SIZE) : ℚ) * CELL_SIZE ∧
      (step .dragging ctxD Matrix2D.identity (.mousemove 164 100 0 0)).2.generationFrame.y =
        (jsRound ((dragCandidate ctxD 164 100).y / CELL_SIZE) : ℚ) * CELL_SIZE ∧
      IsNearestMultipleTieUp CELL_SIZE (dragCandidate ctxD 164 100).x
        (step .dragging ctxD Matrix2D.identity (.mousemove 164 100 0 0)).2.generationFrame.x ∧
      IsNearestMultipleTieUp CELL_SIZE (dragCandidate ctxD 164 100).y
        (step .dragging ctxD Matrix2D.identity (.mousemove 164 100 0 0)).2.generationFrame.y ∧
      (step .dragging ctxD Matrix2D.identity (.mousemove 164 100 0 0)).2.generationFrame.width =
        ctxD.generationFrame.width ∧
      (step .dragging ctxD Matrix2D.identity (.mousemove 164 100 0 0)).2.generationFrame.height =
        ctxD.generationFrame.height :=
  C2_drag_snaps_half_up ctxD reach_dragging_ctxD Matrix2D.identity 164 100 0 0
